import Mathlib

set_option maxHeartbeats 1000000

namespace MySQLHelper

/-! Shallow embedding of the MySQLHelper query-construction library.

Python strings are Lean `String`s.  The character-level scans performed by
`str.replace`, `str.split` and `str.startswith` (used by
`InsertQuery.__columns__` in components.py and by `MySQL.EXECUTE` in
backend.py) are modelled over `List Char`. -/

/-- Kinds of Python exceptions the embedded code can raise.
`assertionError` models a failed `assert` (a validation error). -/
inductive PyErr
  | assertionError
  | typeError
  | indexError
  | nameError
  | attributeError
deriving DecidableEq

/-- A Python value appearing in a VALUES list or a DEFAULT clause:
a string, or a numeric value (modelled by `Int`). -/
inductive PyVal
  | pstr (s : String)
  | pint (n : Int)
deriving DecidableEq

/-- components.py `string_wrapper`: strings are wrapped in single quotes,
anything else is rendered with `str` (numerics stay bare). -/
def string_wrapper : PyVal → String
  | .pstr s => "'" ++ s ++ "'"
  | .pint n => toString n

/-- Boolean prefix test on character lists, driving the left-to-right scans of
Python's `str.replace` / `str.split` / `str.startswith`. -/
def isPre : List Char → List Char → Bool
  | [], _ => true
  | _ :: _, [] => false
  | a :: as, b :: bs => a == b && isPre as bs

/-- Python `s.replace(pat, "")`: delete every non-overlapping occurrence of
`pat`, scanning left to right. -/
def replaceDel (pat : List Char) : List Char → List Char
  | [] => []
  | c :: rest =>
    if isPre pat (c :: rest) then
      replaceDel pat (rest.drop (pat.length - 1))
    else
      c :: replaceDel pat rest
termination_by s => s.length
decreasing_by
  all_goals simp [List.length_drop]
  all_goals omega

/-- Python `s.split(sep)` for a non-empty separator: left-to-right scan,
`"".split(sep) = [""]`. -/
def splitOnSep (sep : List Char) : List Char → List (List Char)
  | [] => [[]]
  | c :: rest =>
    if isPre sep (c :: rest) then
      [] :: splitOnSep sep (rest.drop (sep.length - 1))
    else
      match splitOnSep sep rest with
      | [] => [[c]]
      | p :: ps => (c :: p) :: ps
termination_by s => s.length
decreasing_by
  all_goals simp [List.length_drop]
  all_goals omega

/-- Python `sep.join(parts)` (also the accumulation pattern
`query += part; if i < len-1: query += sep` used throughout components.py). -/
def sepJoin (sep : String) : List String → String
  | [] => ""
  | [x] => x
  | x :: xs => x ++ sep ++ sepJoin sep xs

/-- The `List Char` analogue of `sepJoin`, for reasoning about `.data`. -/
def interJoin (sep : List Char) : List (List Char) → List Char
  | [] => []
  | [x] => x
  | x :: xs => x ++ sep ++ interJoin sep xs

/-- Python `s.upper()` (ASCII). -/
def upperStr (s : String) : String := ⟨s.data.map Char.toUpper⟩

/-- Python `s.startswith(p)`. -/
def startsWithStr (p s : String) : Bool := isPre p.data s.data

/-- constants.py `mysql_data_types.values()`: the data-type whitelist. -/
def mysql_data_types : List String :=
  ["TINYINT", "SMALLINT", "MEDIUMINT", "INT", "INTEGER", "BIGINT", "DECIMAL",
   "DEC", "FLOAT", "DOUBLE", "DOUBLE PRECISION", "REAL", "BIT", "BOOLEAN",
   "BOOL", "DATE", "DATETIME", "TIMESTAMP", "TIME", "YEAR", "CHAR", "VARCHAR",
   "TINYTEXT", "TEXT", "MEDIUMTEXT", "LONGTEXT", "BINARY", "VARBINARY",
   "TINYBLOB", "BLOB", "MEDIUMBLOB", "LONGBLOB", "ENUM", "SET", "GEOMETRY",
   "POINT", "LINESTRING", "POLYGON", "MULTIPOINT", "MULTILINESTRING",
   "MULTIPOLYGON", "GEOMETRYCOLLECTION", "JSON"]

/-- constants.py `constraints.values()`: the column-constraint whitelist. -/
def constraint_keywords : List String := ["NOT NULL", "NULL", "PRIMARY KEY"]

/-- constants.py `on_update_delete.values()`: the cascade-action whitelist. -/
def on_update_delete : List String :=
  ["CASCADE", "SET NULL", "RESTRICT", "NO ACTION", "SET DEFAULT"]

/-- components.py `extract_data_type`: the leading run of word characters
(regex `^\w+`), `none` when the text does not start with a word character. -/
def extract_data_type (s : String) : Option String :=
  let w := s.data.takeWhile (fun c => c.isAlphanum || c == '_')
  if w.isEmpty then none else some ⟨w⟩

/-- components.py `ColumnType` dataclass. -/
structure ColumnType where
  name : String
  datatype : String
  autoincrement : Bool := false
  constraint : Option String := none
  check : Option String := none
  default : Option PyVal := none
deriving DecidableEq

/-- The datatype validation of `ColumnType.get` (line 38):
`extract_data_type(self.datatype.upper()) in constants.mysql_data_types.values()`. -/
def dataTypeOk (ct : ColumnType) : Bool :=
  match extract_data_type (upperStr ct.datatype) with
  | some k => mysql_data_types.contains k
  | none => false

/-- The constraint validation of `ColumnType.get` (lines 39-40). -/
def constraintOk (ct : ColumnType) : Bool :=
  match ct.constraint with
  | some c => constraint_keywords.contains c
  | none => true

/-- The mandatory head of the rendered column: `f"{self.name} {self.datatype}"`. -/
def colTextBase (ct : ColumnType) : String := ct.name ++ " " ++ ct.datatype

/-- The optional tail of the rendered column (AUTO_INCREMENT, constraint,
CHECK, DEFAULT), in the fixed order of `ColumnType.get` lines 43-46. -/
def colExtras (ct : ColumnType) : String :=
  (if ct.autoincrement then " AUTO_INCREMENT" else "")
    ++ (match ct.constraint with | some c => " " ++ c | none => "")
    ++ (match ct.check with | some ch => " CHECK(" ++ ch ++ ")" | none => "")
    ++ (match ct.default with
        | some d => " DEFAULT " ++ string_wrapper d
        | none => "")

/-- components.py `ColumnType.get`: validate, then render
`NAME TYPE [AUTO_INCREMENT] [CONSTRAINT] [CHECK(expr)] [DEFAULT literal]`. -/
def ColumnType.get (ct : ColumnType) : Except PyErr String :=
  if dataTypeOk ct then
    if constraintOk ct then
      .ok (colTextBase ct ++ colExtras ct)
    else .error .assertionError
  else .error .assertionError

/-- The column operand of an aggregate call (`ColumnType` or raw text). -/
inductive AggCol
  | col (c : ColumnType)
  | cstr (s : String)
deriving DecidableEq

/-- components.py `AggregateFunctionType`. -/
structure AggregateFunctionType where
  type : String
  column : AggCol
deriving DecidableEq

/-- Model of `AggregateFunctionType.get`: `f"{self.type.upper()}({column})"`. -/
def AggregateFunctionType.get (a : AggregateFunctionType) : String :=
  upperStr a.type ++ "(" ++ (match a.column with
    | .col c => c.name
    | .cstr s => s) ++ ")"

/-- components.py `ConstraintType` dataclass (foreign-key constraint). -/
structure ConstraintType where
  foreign_key : String
  references : String
  references_column : String
  constraint_name : Option String := none
  on_delete : Option String := none
  on_update : Option String := none
  unique : Option (List String) := none
deriving DecidableEq

/-- components.py `ConstraintType.get`: validate the cascade actions, then
render the multi-line foreign-key block. -/
def ConstraintType.get (k : ConstraintType) : Except PyErr String :=
  let delOk := match k.on_delete with
    | some d => on_update_delete.contains (upperStr d)
    | none => true
  let updOk := match k.on_update with
    | some u => on_update_delete.contains (upperStr u)
    | none => true
  if delOk then
    if updOk then
      .ok ((match k.constraint_name with
             | some n => "CONSTRAINT " ++ n ++ "\n\t"
             | none => "")
        ++ ("FOREIGN KEY (" ++ k.foreign_key ++ ") \n")
        ++ ("REFERENCES " ++ k.references ++ "(" ++ k.references_column ++ ")\n")
        ++ (match k.on_delete with | some d => "ON DELETE " ++ d ++ "\n" | none => "")
        ++ (match k.on_update with | some u => "ON UPDATE " ++ u ++ "\n" | none => "")
        ++ (match k.unique with
            | some us => "UNIQUE (" ++ sepJoin ", " us ++ ")"
            | none => ""))
    else .error .assertionError
  else .error .assertionError

/-- An element of `Table.columns`: the source annotates
`list[ColumnType, AggregateFunctionType, str]`, and `Table.get` calls
`.get()` on each element, so only the two descriptor variants are usable. -/
inductive TableCol
  | col (c : ColumnType)
  | agg (a : AggregateFunctionType)
deriving DecidableEq

/-- The `column.get()` dispatch inside `Table.get` line 113. -/
def TableCol.getE : TableCol → Except PyErr String
  | .col c => c.get
  | .agg a => .ok a.get

/-- components.py `Table` dataclass. -/
structure TableD where
  name : String
  columns : List TableCol
  if_not_exists : Bool := false
  constraints : Option (List ConstraintType) := none
deriving DecidableEq

/-- The list comprehension `[column.get() for column in self.columns]`:
evaluated in order, the first exception aborts the whole render. -/
def renderColsE : List TableCol → Except PyErr (List String)
  | [] => .ok []
  | c :: cs =>
    match c.getE with
    | .error e => .error e
    | .ok s =>
      match renderColsE cs with
      | .error e => .error e
      | .ok ss => .ok (s :: ss)

/-- The list comprehension `[constraint.get() for constraint in self.constraints]`. -/
def renderConsE : List ConstraintType → Except PyErr (List String)
  | [] => .ok []
  | k :: ks =>
    match k.get with
    | .error e => .error e
    | .ok s =>
      match renderConsE ks with
      | .error e => .error e
      | .ok ss => .ok (s :: ss)

/-- The text assembly of `Table.get` lines 117-121. -/
def tableText (t : TableD) (cols : List String) (consl : Option (List String)) :
    String :=
  ("CREATE TABLE " ++ ((if t.if_not_exists then "IF NOT EXISTS " else "")
      ++ (t.name ++ "(\n")))
    ++ sepJoin ",\n" cols
    ++ (match consl with | some _ => ",\n" | none => "\n")
    ++ (match consl with | some cs => sepJoin ",\n" cs ++ ");" | none => ");")

/-- components.py `Table.get`: render all columns, then the constraints if
present, then assemble the `CREATE TABLE` text. -/
def TableD.get (t : TableD) : Except PyErr String :=
  match renderColsE t.columns with
  | .error e => .error e
  | .ok cols =>
    match t.constraints with
    | some ks =>
      match renderConsE ks with
      | .error e => .error e
      | .ok consl => .ok (tableText t cols (some consl))
    | none => .ok (tableText t cols none)

/-- A fetched row (the driver returns a sequence of rows). -/
abbrev Row := List PyVal

/-- components.py `MySqlMethod`: a result handle carrying the statement text,
a clause-kind tag and (for SELECT) the fetched rows. -/
structure MySqlMethod where
  query : String
  name : String
  data : List Row
deriving DecidableEq

/-- components.py `OperatorMethod`: rendered text plus an operator-kind tag. -/
structure OperatorMethod where
  query : String
  id : String
deriving DecidableEq

/-- Python `repr` of a list of row tuples, used when `str()` is taken of raw
row data sitting in the clause buffer (the dead `Values` branch would append
`values.get_results()`, a plain list, to the buffer). -/
def rowsRepr (rows : List Row) : String :=
  "[" ++ sepJoin ", "
    (rows.map (fun r => "(" ++ sepJoin ", " (r.map string_wrapper) ++ ")")) ++ "]"

/-- One entry of `Query.components`: the typed clause wrappers of
components.py (`SelectQuery`, `FromQuery`, ..., each holding its rendered
text), plus `rawData` for the raw row list that `Values` would record for an
`INSERT ... SELECT` (components.py line 982). -/
inductive Fragment
  | selectQ (q : String)
  | fromQ (q : String)
  | whereQ (q : String)
  | insertQ (q : String)
  | valueQ (q : String)
  | updateQ (q : String)
  | deleteQ (q : String)
  | setQ (q : String)
  | groupByQ (q : String)
  | orderByQ (q : String)
  | havingQ (q : String)
  | constraintQ (q : String)
  | rawData (rows : List Row)
deriving DecidableEq

/-- Model of `str(component)`: every wrapper's `__str__` returns its stored text; a raw
row list is rendered with Python's list repr. -/
def fragText : Fragment → String
  | .selectQ q => q
  | .fromQ q => q
  | .whereQ q => q
  | .insertQ q => q
  | .valueQ q => q
  | .updateQ q => q
  | .deleteQ q => q
  | .setQ q => q
  | .groupByQ q => q
  | .orderByQ q => q
  | .havingQ q => q
  | .constraintQ q => q
  | .rawData rows => rowsRepr rows

/-- The mutable state of one `Query` builder instance: the clause buffer
`self.components` (in append order, `components[-1]` is the last element)
and the alias map `self.memory["aliases"]` of `Operators.__init__`. -/
structure QueryState where
  components : List Fragment
  aliases : String → Option String

/-- A fresh `Query()`: empty buffer, empty alias dict. -/
def emptyState : QueryState := ⟨[], fun _ => none⟩

/-- Python dict assignment `self.memory["aliases"][key] = val`. -/
def setAlias (st : QueryState) (key val : String) : QueryState :=
  { st with aliases := fun x => if x = key then some val else st.aliases x }

/-- Model of `InsertQuery.__columns__` (components.py lines 171-174):
`self.query.replace("INSERT INTO (", "").replace(")", "").split(", ")`. -/
def insertColumns (q : String) : List (List Char) :=
  splitOnSep (", ".data)
    ((replaceDel ("INSERT INTO (".data) q.data).filter (fun c => !(c == ')')))

/-- An element of a SELECT column list.  The source also admits `Case`
objects, whose `get` is itself broken (`str += generator`); `Case` is not
needed by any claim and is omitted. -/
inductive SelCol
  | col (c : ColumnType)
  | agg (a : AggregateFunctionType)
  | cstr (s : String)
deriving DecidableEq

/-- Operand rendering in the `Select` loop (components.py lines 778-784). -/
def renderSelCol : SelCol → String
  | .col c => c.name
  | .agg a => a.get
  | .cstr s => s

/-- An element of an INSERT column list (`ColumnType` or raw text; the
source's assert that no `OperatorMethod` appears is enforced by this type). -/
inductive InsCol
  | col (c : ColumnType)
  | cstr (s : String)
deriving DecidableEq

/-- Operand rendering in the `Insert` loop (components.py lines 823-827). -/
def renderInsCol : InsCol → String
  | .col c => c.name
  | .cstr s => s

/-- A table argument (`Table` descriptor or raw name). -/
inductive TblArg
  | tb (t : TableD)
  | tstr (s : String)
deriving DecidableEq

/-- Model of `table.name if isinstance(table, Table) else table`. -/
def tblName : TblArg → String
  | .tb t => t.name
  | .tstr s => s

/-- Argument of `Query.From`: `Table`, raw text, or a `SelectQuery`
(whose stored text is spliced in). -/
inductive FromArg
  | tb (t : TableD)
  | fstr (s : String)
  | subq (q : String)
deriving DecidableEq

/-- One element of a `Where` condition list. -/
inductive CondItem
  | cstr (s : String)
  | op (o : OperatorMethod)
deriving DecidableEq

/-- Argument of `Query.Where`: raw text, an `OperatorMethod`, or a list. -/
inductive WhereArg
  | wstr (s : String)
  | wop (o : OperatorMethod)
  | wlist (cs : List CondItem)
deriving DecidableEq

/-- Argument of `Query.Values`: a literal value list or a `MySqlMethod`
result handle. -/
inductive ValuesArg
  | lit (vs : List PyVal)
  | method (m : MySqlMethod)
deriving DecidableEq

/-- Python `len(values)` inside the `Values` assertion (line 978): defined
for a list, but a `MySqlMethod` defines no `__len__`, so `len` raises
`TypeError`. -/
def pyLen : ValuesArg → Except PyErr Nat
  | .lit vs => .ok vs.length
  | .method _ => .error .typeError

/-- Model of `Query.build` (components.py lines 744-752): join every buffered
fragment's text with newlines, append `";"`, and clear the buffer.  The
alias map is not touched. -/
def build (st : QueryState) : String × QueryState :=
  (sepJoin "\n" (st.components.map fragText) ++ ";",
   { st with components := [] })

/-- Model of `Query.Select` (lines 754-792).  An empty column list reaches
`query += columns` which adds a list to a string: `TypeError`. -/
def Select (columns : List SelCol) (record : Bool) (st : QueryState) :
    Except PyErr (String × QueryState) :=
  if columns.length > 0 then
    let q := "SELECT " ++ sepJoin ", " (columns.map renderSelCol)
    .ok (q, if record then { st with components := st.components ++ [.selectQ q] }
            else st)
  else .error .typeError

/-- Model of `Query.From` (lines 897-927). -/
def From (table : FromArg) (record : Bool) (st : QueryState) :
    String × QueryState :=
  let q := "FROM " ++ (match table with
    | .tb t => t.name
    | .fstr s => s
    | .subq sub => sub)
  (q, if record then { st with components := st.components ++ [.fromQ q] }
      else st)

/-- Model of `Query.Where` (lines 989-1021).  The branch meant to handle a list tests
`isinstance(condition, list)` (line 1011) where the name `condition` is not
yet bound — the first use of the name raises `NameError`, so any list
argument fails before anything is rendered. -/
def Where (conditions : WhereArg) (record : Bool) (st : QueryState) :
    Except PyErr (String × QueryState) :=
  match conditions with
  | .wstr s =>
    let q := "WHERE " ++ s
    .ok (q, if record then { st with components := st.components ++ [.whereQ q] }
            else st)
  | .wop o =>
    let q := "WHERE " ++ o.query
    .ok (q, if record then { st with components := st.components ++ [.whereQ q] }
            else st)
  | .wlist _ => .error .nameError

/-- Model of `Query.Insert` (lines 794-835):
`"INSERT INTO " + table + "(" + col1 + ", " + ... + ")"`. -/
def Insert (table : TblArg) (columns : List InsCol) (record : Bool)
    (st : QueryState) : String × QueryState :=
  let q := ("INSERT INTO " ++ tblName table ++ "(")
    ++ sepJoin ", " (columns.map renderInsCol) ++ ")"
  (q, if record then { st with components := st.components ++ [.insertQ q] }
      else st)

/-- Model of `Query.Values` (lines 960-987).  Order of effects, as in the source:
`components[-1]` (IndexError on an empty buffer); the isinstance assert
(AssertionError when the last fragment is not an `InsertQuery`); the count
assert, whose right side `len(values)` raises `TypeError` for a
`MySqlMethod`; only then the `MySqlMethod` "select" branch (lines 980-983,
unreachable for a method argument because of the `len` call) and the
`VALUES (...)` rendering. -/
def Values (values : ValuesArg) (record : Bool) (st : QueryState) :
    Except PyErr (Fragment × QueryState) :=
  match st.components.getLast? with
  | none => .error .indexError
  | some (.insertQ q) =>
    match pyLen values with
    | .error e => .error e
    | .ok m =>
      if (insertColumns q).length = m then
        match values with
        | .method mm =>
          if mm.name == "select" then
            .ok (.rawData mm.data,
                 if record then { st with components := st.components ++ [.rawData mm.data] }
                 else st)
          else
            -- iterating a MySqlMethod in the comprehension would raise; unreachable
            .error .typeError
        | .lit vs =>
          let q' := "VALUES (" ++ sepJoin ", " (vs.map string_wrapper) ++ ")"
          .ok (.valueQ q',
               if record then { st with components := st.components ++ [.valueQ q'] }
               else st)
      else .error .assertionError
  | some _ => .error .assertionError

/-- Entity argument of `Operators.AS`. -/
inductive AsEntity
  | col (c : ColumnType)
  | agg (a : AggregateFunctionType)
  | tbl (t : TableD)
  | estr (s : String)
  | subq (q : String)
deriving DecidableEq

/-- Model of `Operators.AS` (lines 533-573).  `_type` selects suffix ` AS alias`,
suffix ` alias`, or `alias.` as a dot-qualifying path; any other `_type`
leaves `suffix`/`prefix` unbound and the f-string raises `NameError`.
Column, table and raw-text entities record `entity -> alias` in the alias
map; prefix mode on a subquery fails the assert at line 570. -/
def AS (entity : AsEntity) (aliasName : String) (ty : Nat) (st : QueryState) :
    Except PyErr (String × QueryState) :=
  if ty = 1 ∨ ty = 2 ∨ ty = 3 then
    let sfx := if ty = 1 then " AS " ++ aliasName
               else if ty = 2 then " " ++ aliasName else ""
    let pfx := if ty = 3 then aliasName ++ "." else ""
    match entity with
    | .col c => .ok (pfx ++ c.name ++ sfx, setAlias st c.name aliasName)
    | .tbl t => .ok (pfx ++ t.name ++ sfx, setAlias st t.name aliasName)
    | .agg a => .ok (pfx ++ a.get ++ sfx, st)
    | .estr s => .ok (pfx ++ s ++ sfx, setAlias st s aliasName)
    | .subq q =>
      if ty = 3 then .error .assertionError
      else .ok ("(" ++ q ++ ")" ++ sfx, st)
  else .error .nameError

/-- A table operand of `Operators.JOIN` (`Table`, raw text, or a
`SelectQuery` object). -/
inductive JTbl
  | tb (t : TableD)
  | jstr (s : String)
  | subq (q : String)
deriving DecidableEq

/-- Model of `left_table.name if isinstance(left_table, Table) else left_table`. -/
def jtName : JTbl → String
  | .tb t => t.name
  | .jstr s => s
  | .subq q => q

/-- Model of `self.memory["aliases"].get(...)` for a JOIN operand.  The dict is keyed
by strings put there by `AS`; a `SelectQuery` object is a fresh object key
and is never found. -/
def lookupJ (st : QueryState) : JTbl → Option String
  | .tb t => st.aliases t.name
  | .jstr s => st.aliases s
  | .subq _ => none

/-- An ON-column operand of `JOIN` (`ColumnType` or raw text). -/
inductive ColArg
  | col (c : ColumnType)
  | cas (s : String)
deriving DecidableEq

/-- Model of `left_on.name if isinstance(left_on, ColumnType) else left_on`. -/
def colArgName : ColArg → String
  | .col c => c.name
  | .cas s => s

/-- Model of `Operators.JOIN` (lines 681-700): look up any recorded alias for each
table and qualify the matching ON operand with `alias.`. -/
def JOIN (ty : String) (lt rt : JTbl) (lon ron : ColArg) (st : QueryState) :
    String :=
  let la := lookupJ st lt
  let ra := lookupJ st rt
  (jtName lt ++ " " ++ ty ++ " JOIN " ++ jtName rt ++ " ")
    ++ ("ON " ++ (match la with | some a => a ++ "." | none => "")
        ++ colArgName lon ++ " = "
        ++ (match ra with | some a => a ++ "." | none => "")
        ++ colArgName ron)

/-- The statement argument of `MySQL.EXECUTE` (backend.py line 45): a raw
string or one of the typed statement wrappers. -/
inductive ExecArg
  | selq (s : String)
  | insq (s : String)
  | updq (s : String)
  | delq (s : String)
  | raw (s : String)
deriving DecidableEq

/-- The fetch decision of `MySQL.EXECUTE` (backend.py lines 66-71), with the
rows the driver would produce passed in as `fetched`:
`if isinstance(query, SelectQuery) or query.upper().startswith("SELECT")`.
For a `SelectQuery` the `or` short-circuits and the rows are fetched; for a
raw string the textual check decides; for the other typed wrappers
`query.upper()` is attribute access on an object with no `upper` method and
raises `AttributeError`. -/
def EXECUTE (query : ExecArg) (fetched : List Row) : Except PyErr (List Row) :=
  match query with
  | .selq _ => .ok fetched
  | .raw s => if startsWithStr "SELECT" (upperStr s) then .ok fetched else .ok []
  | .insq _ => .error .attributeError
  | .updq _ => .error .attributeError
  | .delq _ => .error .attributeError

/-- backend.py `Connector.__ALLOWED_KEYS__`. -/
def allowedKeys : List String := ["host", "user", "password", "database", "port"]

/-- Python dict assignment `self.credentials[key] = val` on an
insertion-ordered association list. -/
def dictSet (d : List (String × String)) (k v : String) :
    List (String × String) :=
  if k ∈ d.map Prod.fst then
    d.map (fun kv => if kv.1 = k then (k, v) else kv)
  else d ++ [(k, v)]

/-- Model of `Connector.__init__` (backend.py lines 10-27): `self.credentials`
starts empty; the key/value pairs are copied in only when every key is in
the allowed set, otherwise the whole mapping is silently dropped.  The
credential dict is modelled as its insertion-ordered item list. -/
def connectorInit (credentials : List (String × String)) :
    List (String × String) :=
  if credentials.all (fun kv => allowedKeys.contains kv.1) then
    credentials.foldl (fun d kv => dictSet d kv.1 kv.2) []
  else []

/-- A well-formed table name for an INSERT: non-empty and free of the
characters the `__columns__` string scan is sensitive to
(space, comma and parentheses). -/
def goodName (s : String) : Prop :=
  s.data ≠ [] ∧ ∀ c ∈ s.data, c ≠ ' ' ∧ c ≠ ',' ∧ c ≠ '(' ∧ c ≠ ')'

/-- A well-formed column name for an INSERT: free of the separator and
parenthesis characters the `__columns__` string scan is sensitive to. -/
def goodColName (s : String) : Prop :=
  ∀ c ∈ s.data, c ≠ ',' ∧ c ≠ '(' ∧ c ≠ ')'

instance (s : String) : Decidable (goodName s) := by
  unfold goodName; infer_instance

instance (s : String) : Decidable (goodColName s) := by
  unfold goodColName; infer_instance

theorem isPre_exists (p : List Char) :
    ∀ s, isPre p s = true → ∃ u, s = p ++ u := by
  induction p with
  | nil => intro s _; exact ⟨s, rfl⟩
  | cons a as ih =>
    intro s h
    cases s with
    | nil => simp [isPre] at h
    | cons b bs =>
      simp only [isPre, Bool.and_eq_true, beq_iff_eq] at h
      obtain ⟨u, hu⟩ := ih bs h.2
      exact ⟨u, by simp [← h.1, hu]⟩

theorem replaceDel_id (pat : List Char) :
    ∀ s, (∀ l r, l ++ pat ++ r ≠ s) → replaceDel pat s = s := by
  intro s
  induction s with
  | nil => intro _; simp [replaceDel]
  | cons c rest ih =>
    intro h
    have hg : isPre pat (c :: rest) = false := by
      cases hg : isPre pat (c :: rest) with
      | false => rfl
      | true =>
        obtain ⟨u, hu⟩ := isPre_exists pat _ hg
        exact absurd (by simpa using hu.symm) (h [] u)
    have h' : ∀ l r, l ++ pat ++ r ≠ rest := by
      intro l r hlr
      apply h (c :: l) r
      rw [show (c :: l) ++ pat ++ r = c :: (l ++ pat ++ r) from by simp, hlr]
    simp [replaceDel, hg, ih h']

theorem takeWhile_append_all (p : Char → Bool) (a : List Char)
    (h : ∀ x ∈ a, p x = true) (b : List Char) :
    (a ++ b).takeWhile p = a ++ b.takeWhile p := by
  induction a with
  | nil => simp
  | cons c cs ih =>
    have hc : p c = true := h c (List.mem_cons_self _ _)
    simp [List.takeWhile_cons, hc,
      ih (fun x hx => h x (List.mem_cons_of_mem _ hx))]

theorem insert_pattern_no_match (t m : List Char) (ht : t ≠ [])
    (hsp : ' ' ∉ t) (hpt : '(' ∉ t) (hpm : '(' ∉ m) :
    ∀ l r, l ++ "INSERT INTO (".data ++ r
        ≠ "INSERT INTO ".data ++ (t ++ ('(' :: (m ++ [')']))) := by
  intro l r heq
  have hpd : ("INSERT INTO (".data : List Char)
      = "INSERT INTO ".data ++ ['('] := by decide
  rw [hpd] at heq
  simp only [List.append_assoc, List.singleton_append] at heq
  -- count the unique '(' to see the candidate head `l` contains none
  have hc0 : List.count '(' ("INSERT INTO ".data : List Char) = 0 := by decide
  have hcnt := congrArg (List.count '(') heq
  simp only [List.count_append, List.count_cons_self, hc0,
    List.count_eq_zero.mpr hpt, List.count_eq_zero.mpr hpm] at hcnt
  have hl : '(' ∉ l := by
    apply List.count_eq_zero.mp
    have hc1 : List.count '(' ([')'] : List Char) = 0 := by decide
    omega
  -- cut both sides at the first '(' with takeWhile
  have hpl : ∀ x ∈ l, (fun c => !(c == '(')) x = true := by
    intro x hx
    have hxne : x ≠ '(' := fun he => hl (he ▸ hx)
    simp [hxne]
  have hpt' : ∀ x ∈ t, (fun c => !(c == '(')) x = true := by
    intro x hx
    have hxne : x ≠ '(' := fun he => hpt (he ▸ hx)
    simp [hxne]
  have hP : ∀ x ∈ ("INSERT INTO ".data : List Char),
      (fun c => !(c == '(')) x = true := by decide
  have htw := congrArg (List.takeWhile (fun c => !(c == '('))) heq
  rw [takeWhile_append_all _ l hpl, takeWhile_append_all _ _ hP,
      takeWhile_append_all _ _ hP, takeWhile_append_all _ t hpt'] at htw
  simp only [List.takeWhile_cons, beq_self_eq_true, Bool.not_true,
    Bool.false_eq_true, if_false, List.append_nil] at htw
  -- htw : l ++ "INSERT INTO ".data = "INSERT INTO ".data ++ t
  have hrev := congrArg List.reverse htw
  simp only [List.reverse_append] at hrev
  have hPrev : ("INSERT INTO ".data : List Char).reverse
      = ' ' :: "OTNI TRESNI".data := by decide
  cases hcr : t.reverse with
  | nil => exact ht (by simpa using congrArg List.reverse hcr)
  | cons c cs =>
    rw [hPrev, hcr] at hrev
    simp only [List.cons_append, List.cons.injEq] at hrev
    have hcm : c ∈ t := List.mem_reverse.mp (hcr ▸ List.mem_cons_self c cs)
    exact hsp (hrev.1 ▸ hcm)

theorem splitOnSep_no_comma (p : List Char) (hp : ',' ∉ p) :
    splitOnSep [',', ' '] p = [p] := by
  induction p with
  | nil => simp [splitOnSep]
  | cons c rest ih =>
    have hc : c ≠ ',' := by
      intro he
      exact hp (he ▸ List.mem_cons_self c rest)
    have hrest : ',' ∉ rest := fun h => hp (List.mem_cons_of_mem _ h)
    have hf : isPre [',', ' '] (c :: rest) = false := by
      simp [isPre, beq_eq_false_iff_ne.mpr (Ne.symm hc)]
    simp [splitOnSep, hf, ih hrest]

theorem splitOnSep_sep_append (p : List Char) (hp : ',' ∉ p) :
    ∀ u, splitOnSep [',', ' '] (p ++ ',' :: ' ' :: u)
      = p :: splitOnSep [',', ' '] u := by
  induction p with
  | nil =>
    intro u
    have hT : isPre [',', ' '] (',' :: ' ' :: u) = true := by simp [isPre]
    simp [splitOnSep, hT]
  | cons c rest ih =>
    intro u
    have hc : c ≠ ',' := by
      intro he
      exact hp (he ▸ List.mem_cons_self c rest)
    have hrest : ',' ∉ rest := fun h => hp (List.mem_cons_of_mem _ h)
    have hf : isPre [',', ' '] (c :: (rest ++ ',' :: ' ' :: u)) = false := by
      simp [isPre, beq_eq_false_iff_ne.mpr (Ne.symm hc)]
    simp [splitOnSep, hf, ih hrest u]

theorem splitOnSep_interJoin (ps : List (List Char)) :
    ∀ p, (∀ q ∈ p :: ps, ',' ∉ q) →
      splitOnSep [',', ' '] (interJoin [',', ' '] (p :: ps)) = p :: ps := by
  induction ps with
  | nil =>
    intro p hall
    simp [interJoin, splitOnSep_no_comma p (hall p (by simp))]
  | cons q qs ih =>
    intro p hall
    have h1 : interJoin [',', ' '] (p :: q :: qs)
        = p ++ ',' :: ' ' :: interJoin [',', ' '] (q :: qs) := by
      simp [interJoin]
    rw [h1, splitOnSep_sep_append p (hall p (by simp)),
        ih q (fun q' hq' => hall q' (by simp at hq' ⊢; tauto))]

theorem interJoin_mem (sep : List Char) (c : Char) :
    ∀ ps : List (List Char), c ∈ interJoin sep ps →
      c ∈ sep ∨ ∃ p ∈ ps, c ∈ p := by
  intro ps
  induction ps with
  | nil => intro h; simp [interJoin] at h
  | cons p qs ih =>
    intro h
    cases qs with
    | nil =>
      right
      exact ⟨p, by simp, by simpa [interJoin] using h⟩
    | cons q' qs' =>
      rw [show interJoin sep (p :: q' :: qs') = p ++ sep ++ interJoin sep (q' :: qs')
            from by simp [interJoin]] at h
      rcases List.mem_append.mp h with h' | h'
      · rcases List.mem_append.mp h' with h'' | h''
        · exact Or.inr ⟨p, by simp, h''⟩
        · exact Or.inl h''
      · rcases ih h' with h'' | ⟨p', hp', hc'⟩
        · exact Or.inl h''
        · exact Or.inr ⟨p', by simp [hp'], hc'⟩

theorem interJoin_prepend (sep pre n0 : List Char) (rest : List (List Char)) :
    pre ++ interJoin sep (n0 :: rest) = interJoin sep ((pre ++ n0) :: rest) := by
  cases rest with
  | nil => simp [interJoin]
  | cons y ys => simp [interJoin, List.append_assoc]

theorem sepJoin_data (sep : String) (l : List String) :
    (sepJoin sep l).data = interJoin sep.data (l.map String.data) := by
  induction l with
  | nil => rfl
  | cons x xs ih =>
    cases xs with
    | nil => rfl
    | cons y ys => simp [sepJoin, interJoin, ih]

/-- The length of `InsertQuery.__columns__` on a rendered INSERT equals the
number of columns, when the table and column names are well formed. -/
theorem insertColumns_render (t : String) (names : List String)
    (ht : t.data ≠ [])
    (htg : ∀ c ∈ t.data, c ≠ ' ' ∧ c ≠ ',' ∧ c ≠ '(' ∧ c ≠ ')')
    (hng : ∀ n ∈ names, ∀ c ∈ n.data, c ≠ ',' ∧ c ≠ '(' ∧ c ≠ ')')
    (hne : names ≠ []) :
    (insertColumns (("INSERT INTO " ++ t ++ "(")
        ++ sepJoin ", " names ++ ")")).length = names.length := by
  obtain ⟨n0, rest, rfl⟩ : ∃ n0 rest, names = n0 :: rest := by
    cases names with
    | nil => exact absurd rfl hne
    | cons a l => exact ⟨a, l, rfl⟩
  have hqd : ((("INSERT INTO " ++ t ++ "(") ++ sepJoin ", " (n0 :: rest)
        ++ ")").data : List Char)
      = "INSERT INTO ".data
        ++ (t.data ++ ('(' :: (interJoin [',', ' ']
              ((n0 :: rest).map String.data) ++ [')']))) := by
    simp only [String.data_append, sepJoin_data, List.append_assoc]
    rfl
  have hM : ∀ c ∈ interJoin [',', ' '] ((n0 :: rest).map String.data),
      c ≠ '(' ∧ c ≠ ')' := by
    intro c hc
    rcases interJoin_mem _ c _ hc with h | ⟨p, hp, hcp⟩
    · simp at h
      rcases h with h | h <;> simp [h]
    · obtain ⟨n, hn, rfl⟩ := List.mem_map.mp hp
      exact ⟨(hng n hn c hcp).2.1, (hng n hn c hcp).2.2⟩
  have hrep : replaceDel ("INSERT INTO (".data)
        ((("INSERT INTO " ++ t ++ "(") ++ sepJoin ", " (n0 :: rest) ++ ")").data)
      = ("INSERT INTO " ++ t ++ "(").data ++ (sepJoin ", " (n0 :: rest)).data
          ++ ")".data := by
    rw [show ((("INSERT INTO " ++ t ++ "(") ++ sepJoin ", " (n0 :: rest)
          ++ ")").data : List Char)
        = ("INSERT INTO " ++ t ++ "(").data ++ (sepJoin ", " (n0 :: rest)).data
            ++ ")".data from by simp [String.data_append]]
    rw [show (("INSERT INTO " ++ t ++ "(").data : List Char)
          ++ (sepJoin ", " (n0 :: rest)).data ++ ")".data
        = "INSERT INTO ".data ++ (t.data ++ ('(' :: (interJoin [',', ' ']
              ((n0 :: rest).map String.data) ++ [')'])))
       from by simp [String.data_append, sepJoin_data, List.append_assoc]]
    rw [replaceDel_id _ _ (insert_pattern_no_match t.data _ ht
          (fun h => ((htg ' ' h).1 rfl).elim)
          (fun h => ((htg '(' h).2.2.1 rfl).elim)
          (fun h => ((hM '(' h).1 rfl).elim))]
  have hrep2 : replaceDel ("INSERT INTO (".data)
        ((("INSERT INTO " ++ t ++ "(") ++ sepJoin ", " (n0 :: rest) ++ ")").data)
      = "INSERT INTO ".data ++ (t.data ++ ('(' :: (interJoin [',', ' ']
            ((n0 :: rest).map String.data) ++ [')']))) := by
    rw [hrep]
    simp [String.data_append, sepJoin_data, List.append_assoc]
  have hfil : ("INSERT INTO ".data ++ (t.data ++ ('(' :: (interJoin [',', ' ']
          ((n0 :: rest).map String.data) ++ [')'])))).filter (fun c => !(c == ')'))
      = "INSERT INTO ".data ++ (t.data ++ ('(' :: interJoin [',', ' ']
          ((n0 :: rest).map String.data))) := by
    have h1 : ("INSERT INTO ".data : List Char).filter (fun c => !(c == ')'))
        = "INSERT INTO ".data := by decide
    have h2 : t.data.filter (fun c => !(c == ')')) = t.data :=
      List.filter_eq_self.mpr (fun c hc => by simp [(htg c hc).2.2.2])
    have h3 : (interJoin [',', ' '] ((n0 :: rest).map String.data)).filter
          (fun c => !(c == ')'))
        = interJoin [',', ' '] ((n0 :: rest).map String.data) :=
      List.filter_eq_self.mpr (fun c hc => by simp [(hM c hc).2])
    simp [List.filter_append, List.filter_cons, h1, h2, h3]
    intro a ha
    exact (hM a (by simpa using ha)).2
  have hshape : "INSERT INTO ".data ++ (t.data ++ ('(' :: interJoin [',', ' ']
        ((n0 :: rest).map String.data)))
      = interJoin [',', ' ']
          ((("INSERT INTO ".data ++ (t.data ++ ['('])) ++ n0.data)
            :: rest.map String.data) := by
    rw [← interJoin_prepend]
    simp [List.append_assoc]
  have hhead : ',' ∉ ("INSERT INTO ".data ++ (t.data ++ ['('])) ++ n0.data := by
    intro hc
    rcases List.mem_append.mp hc with h | h
    · rcases List.mem_append.mp h with h' | h'
      · revert h'; decide
      · rcases List.mem_append.mp h' with h'' | h''
        · exact (htg ',' h'').2.1 rfl
        · simp at h''
    · exact (hng n0 (by simp) ',' h).1 rfl
  have hall : ∀ q ∈ (("INSERT INTO ".data ++ (t.data ++ ['('])) ++ n0.data)
        :: rest.map String.data, ',' ∉ q := by
    intro q hq
    rcases List.mem_cons.mp hq with rfl | hq'
    · exact hhead
    · obtain ⟨n, hn, rfl⟩ := List.mem_map.mp hq'
      intro hc
      exact (hng n (by simp [hn]) ',' hc).1 rfl
  have hsplit := splitOnSep_interJoin (rest.map String.data)
      (("INSERT INTO ".data ++ (t.data ++ ['('])) ++ n0.data) hall
  show (splitOnSep (", ".data) ((replaceDel ("INSERT INTO (".data)
      ((("INSERT INTO " ++ t ++ "(") ++ sepJoin ", " (n0 :: rest)
        ++ ")").data)).filter (fun c => !(c == ')')))).length = _
  rw [show ((", ".data : List Char)) = [',', ' '] from rfl]
  rw [hrep2, hfil, hshape, hsplit]
  simp

/-- C2: for an `Insert` recorded with a well-formed table name and N
well-formed column names, a `Values` call immediately following it in the
buffer with a literal value list fails with a validation (assertion) error
when the list's length differs from N, and succeeds when it equals N,
recording `VALUES (v1, ..., vN)` where `string_wrapper` single-quotes every
string value and leaves every numeric value bare; and `Values` fails with
the same validation error whenever the last buffered fragment is not an
Insert. -/
theorem values_insert_count_contract (tb : TblArg) (cols : List InsCol)
    (vals : List PyVal) (st : QueryState)
    (ht : goodName (tblName tb))
    (hcols : ∀ c ∈ cols, goodColName (renderInsCol c))
    (hne : cols ≠ []) :
    (vals.length ≠ cols.length →
       Values (.lit vals) true (Insert tb cols true st).2
         = .error .assertionError)
    ∧ (vals.length = cols.length →
       Values (.lit vals) true (Insert tb cols true st).2
         = .ok (.valueQ ("VALUES ("
                ++ sepJoin ", " (vals.map string_wrapper) ++ ")"),
                { (Insert tb cols true st).2 with
                  components := (Insert tb cols true st).2.components
                    ++ [.valueQ ("VALUES ("
                        ++ sepJoin ", " (vals.map string_wrapper) ++ ")")] }))
    ∧ (∀ (arg : ValuesArg) (st' : QueryState) (f : Fragment),
        st'.components.getLast? = some f → (∀ q, f ≠ .insertQ q) →
        Values arg true st' = .error .assertionError) := by
  obtain ⟨ht1, ht2⟩ := ht
  have hlen : (insertColumns (("INSERT INTO " ++ tblName tb ++ "(")
      ++ sepJoin ", " (cols.map renderInsCol) ++ ")")).length = cols.length := by
    have h := insertColumns_render (tblName tb) (cols.map renderInsCol) ht1 ht2
      (by
        intro n hn
        obtain ⟨c, hc, rfl⟩ := List.mem_map.mp hn
        exact hcols c hc)
      (by simpa using hne)
    simpa using h
  have hlast : (Insert tb cols true st).2.components.getLast?
      = some (Fragment.insertQ (("INSERT INTO " ++ tblName tb ++ "(")
          ++ sepJoin ", " (cols.map renderInsCol) ++ ")")) := by
    rw [show (Insert tb cols true st).2.components
        = st.components ++ [Fragment.insertQ (("INSERT INTO " ++ tblName tb ++ "(")
            ++ sepJoin ", " (cols.map renderInsCol) ++ ")")] from rfl]
    exact List.getLast?_concat ..
  refine ⟨?_, ?_, ?_⟩
  · intro hneq
    simp only [Values, hlast, pyLen]
    rw [hlen, if_neg (fun he => hneq he.symm)]
  · intro heq
    simp only [Values, hlast, pyLen]
    rw [hlen, if_pos heq.symm]
    simp
  · intro arg st' f hlast' hnotins
    cases f <;> first
      | exact absurd rfl (hnotins _)
      | simp [Values, hlast']

/-- Witness for C2: an INSERT into `T(A, B)` rejects one value, accepts two
(quoting the string, leaving the number bare), and `Values` after a
non-INSERT fragment is rejected. -/
theorem values_insert_count_contract_witness :
    Values (.lit [.pstr "x"]) true
        (Insert (.tstr "T") [.cstr "A", .cstr "B"] true emptyState).2
      = .error .assertionError
    ∧ Values (.lit [.pstr "x", .pint 5]) true
        (Insert (.tstr "T") [.cstr "A", .cstr "B"] true emptyState).2
      = .ok (.valueQ ("VALUES (" ++ sepJoin ", "
            ([PyVal.pstr "x", PyVal.pint 5].map string_wrapper) ++ ")"),
            { (Insert (.tstr "T") [.cstr "A", .cstr "B"] true emptyState).2 with
              components := (Insert (.tstr "T") [.cstr "A", .cstr "B"] true
                  emptyState).2.components
                ++ [.valueQ ("VALUES (" ++ sepJoin ", "
                    ([PyVal.pstr "x", PyVal.pint 5].map string_wrapper) ++ ")")] })
    ∧ Values (.lit []) true ⟨[.fromQ "FROM T"], fun _ => none⟩
      = .error .assertionError :=
  ⟨(values_insert_count_contract (.tstr "T") [.cstr "A", .cstr "B"] _ _
      (by decide) (by decide) (by decide)).1 (by decide),
   (values_insert_count_contract (.tstr "T") [.cstr "A", .cstr "B"] _ _
      (by decide) (by decide) (by decide)).2.1 (by decide),
   (values_insert_count_contract (.tstr "T") [.cstr "A", .cstr "B"]
      [] ⟨[], fun _ => none⟩ (by decide) (by decide) (by decide)).2.2
      (.lit []) ⟨[.fromQ "FROM T"], fun _ => none⟩ (.fromQ "FROM T") rfl
      (fun q h => Fragment.noConfusion h)⟩

/-- C1: building a SELECT with `Query.Select(["A","B"])`, `Query.From("T")`,
`Query.Where("A > 1")` and then `Query.build()` returns exactly
`"SELECT A, B\nFROM T\nWHERE A > 1;"` — the clause texts joined by newlines
and terminated by a semicolon. -/
theorem select_from_where_build_roundtrip :
    (match Select [SelCol.cstr "A", SelCol.cstr "B"] true emptyState with
     | .error e => .error e
     | .ok r1 =>
       match Where (.wstr "A > 1") true (From (.fstr "T") true r1.2).2 with
       | .error e => .error e
       | .ok r3 => Except.ok (build r3.2).1)
      = Except.ok "SELECT A, B\nFROM T\nWHERE A > 1;" := rfl

/-- C5: `Query.build()` returns the buffered fragment texts joined by
newlines with a terminating semicolon, leaves the components buffer empty,
and leaves the alias map of the builder instance untouched. -/
theorem build_joins_clears_preserves_aliases (st : QueryState) :
    (build st).1 = sepJoin "\n" (st.components.map fragText) ++ ";"
      ∧ (build st).2.components = []
      ∧ (build st).2.aliases = st.aliases :=
  ⟨rfl, rfl, rfl⟩

/-- C10: `Query.Where` applied to any list of conditions raises `NameError`:
the list branch tests the unbound name `condition` (components.py line 1011),
so the list-of-conditions interface never renders a WHERE clause. -/
theorem where_list_name_error (cs : List CondItem) (record : Bool)
    (st : QueryState) :
    Where (.wlist cs) record st = .error .nameError := rfl

/-- C4 (code bug): `MySQL.EXECUTE` fetches rows for a `SelectQuery` value or
a raw string starting with SELECT case-insensitively, and returns an empty
row list for other raw strings; but for the typed non-SELECT statements its
own signature accepts (`InsertQuery`, `UpdateQuery`, `DeleteQuery`) the check
`query.upper()` raises `AttributeError` instead of returning an empty list. -/
theorem execute_typed_nonselect_attribute_error :
    (∀ s fetched, EXECUTE (.insq s) fetched = .error .attributeError)
    ∧ (∀ s fetched, EXECUTE (.updq s) fetched = .error .attributeError)
    ∧ (∀ s fetched, EXECUTE (.delq s) fetched = .error .attributeError)
    ∧ (∀ s fetched, EXECUTE (.selq s) fetched = .ok fetched)
    ∧ EXECUTE (.raw "select * from T") [[.pint 1]] = .ok [[.pint 1]]
    ∧ EXECUTE (.raw "UPDATE T SET A=1") [[.pint 1]] = .ok [] :=
  ⟨fun _ _ => rfl, fun _ _ => rfl, fun _ _ => rfl, fun _ _ => rfl, rfl, rfl⟩

/-- C3 (code bug): `Query.Values` given a prior SELECT result handle
(`MySqlMethod`) right after an `Insert` does not succeed: the count
assertion evaluates `len(values)` before the `MySqlMethod` branch is
reached, and `MySqlMethod` has no `__len__`, so the call raises `TypeError`
and the `INSERT ... SELECT` branch (components.py lines 980-983) is dead
code. -/
theorem values_select_handle_type_error (pre : List Fragment) (q : String)
    (al : String → Option String) (m : MySqlMethod) (record : Bool) :
    Values (.method m) record ⟨pre ++ [.insertQ q], al⟩ = .error .typeError := by
  simp [Values, List.getLast?_concat, pyLen]

/-- C6: `ColumnType.get` succeeds when the leading word-character run of the
uppercased datatype is in the data-type whitelist and the constraint, if
present, is in the constraint whitelist, and its result begins with
`"{name} {datatype}"`; when the datatype keyword is not whitelisted it fails
with a validation (assertion) error. -/
theorem columntype_get_whitelist_contract (ct : ColumnType) :
    (dataTypeOk ct = true → constraintOk ct = true →
       ColumnType.get ct = .ok (colTextBase ct ++ colExtras ct)
         ∧ colTextBase ct = ct.name ++ " " ++ ct.datatype
         ∧ (colTextBase ct).data <+: (colTextBase ct ++ colExtras ct).data)
    ∧ (dataTypeOk ct = false →
       ColumnType.get ct = .error .assertionError) := by
  constructor
  · intro h1 h2
    refine ⟨by simp [ColumnType.get, h1, h2], rfl, ?_⟩
    rw [String.data_append]
    exact List.prefix_append _ _
  · intro h1
    simp [ColumnType.get, h1]

/-- Witness for C6: `"ID INT"` renders and starts with the name-datatype
head; datatype `"FOO"` is rejected with an assertion error. -/
theorem columntype_get_whitelist_contract_witness :
    (ColumnType.get ⟨"ID", "INT", false, none, none, none⟩
        = .ok (colTextBase ⟨"ID", "INT", false, none, none, none⟩
            ++ colExtras ⟨"ID", "INT", false, none, none, none⟩))
    ∧ ColumnType.get ⟨"X", "FOO", false, none, none, none⟩
        = .error .assertionError :=
  ⟨((columntype_get_whitelist_contract _).1 (by decide) (by decide)).1,
   (columntype_get_whitelist_contract _).2 (by decide)⟩

/-- C7: `Operators.AS` in mode 1 on a raw name `x` with alias `y` renders
`x AS y` and records `x -> y` in the alias map, so a later `Operators.JOIN`
whose left (or right) table is `x` qualifies the corresponding ON operand
with `y.`. -/
theorem as_alias_join_qualification (x y jt lcol rcol : String) (rt : JTbl)
    (st : QueryState) (hr : lookupJ (setAlias st x y) rt = none) :
    AS (.estr x) y 1 st = .ok (x ++ (" AS " ++ y), setAlias st x y)
    ∧ JOIN jt (.jstr x) rt (.cas lcol) (.cas rcol) (setAlias st x y)
        = (x ++ " " ++ jt ++ " JOIN " ++ jtName rt ++ " ")
          ++ ("ON " ++ (y ++ ".") ++ lcol ++ " = " ++ "" ++ rcol)
    ∧ JOIN jt rt (.jstr x) (.cas lcol) (.cas rcol) (setAlias st x y)
        = (jtName rt ++ " " ++ jt ++ " JOIN " ++ x ++ " ")
          ++ ("ON " ++ "" ++ lcol ++ " = " ++ (y ++ ".") ++ rcol) := by
  have hl : lookupJ (setAlias st x y) (.jstr x) = some y := by
    simp [lookupJ, setAlias]
  refine ⟨rfl, ?_, ?_⟩
  · simp [JOIN, hl, hr, colArgName, jtName]
  · simp [JOIN, hl, hr, colArgName, jtName]

/-- Witness for C7 at `x = "X"`, `y = "Y"`, an unaliased right table `"R"`
and join column `"col"`. -/
theorem as_alias_join_qualification_witness :
    AS (.estr "X") "Y" 1 emptyState
        = .ok ("X" ++ (" AS " ++ "Y"), setAlias emptyState "X" "Y")
    ∧ JOIN "INNER" (.jstr "X") (.jstr "R") (.cas "col") (.cas "c2")
        (setAlias emptyState "X" "Y")
        = ("X" ++ " " ++ "INNER" ++ " JOIN " ++ jtName (.jstr "R") ++ " ")
          ++ ("ON " ++ ("Y" ++ ".") ++ "col" ++ " = " ++ "" ++ "c2") :=
  ⟨(as_alias_join_qualification "X" "Y" "INNER" "col" "c2" (.jstr "R")
      emptyState rfl).1,
   (as_alias_join_qualification "X" "Y" "INNER" "col" "c2" (.jstr "R")
      emptyState rfl).2.1⟩

/-- C8: `Table.get` on a table named `nm` with `if_not_exists = true`, two
columns that render successfully and no constraints returns exactly
`CREATE TABLE IF NOT EXISTS nm(\n<col1>,\n<col2>\n);` — comma+newline
between the columns and no trailing separator after the last one. -/
theorem create_table_two_columns_render (nm : String) (c1 c2 : ColumnType)
    (s1 s2 : String) (h1 : ColumnType.get c1 = .ok s1)
    (h2 : ColumnType.get c2 = .ok s2) :
    TableD.get ⟨nm, [.col c1, .col c2], true, none⟩
      = .ok (("CREATE TABLE " ++ ("IF NOT EXISTS " ++ (nm ++ "(\n")))
          ++ (s1 ++ ",\n" ++ s2) ++ "\n" ++ ");") := by
  simp [TableD.get, renderColsE, TableCol.getE, h1, h2, tableText, sepJoin]

/-- Witness for C8: a concrete two-column table. -/
theorem create_table_two_columns_render_witness :
    TableD.get ⟨"T",
        [.col ⟨"COL1", "INT", false, none, none, none⟩,
         .col ⟨"COL2", "VARCHAR(10)", false, none, none, none⟩], true, none⟩
      = .ok (("CREATE TABLE " ++ ("IF NOT EXISTS " ++ ("T" ++ "(\n")))
          ++ ("COL1 INT" ++ ",\n" ++ "COL2 VARCHAR(10)") ++ "\n" ++ ");") :=
  create_table_two_columns_render "T" _ _ "COL1 INT" "COL2 VARCHAR(10)"
    (by rfl) (by rfl)

/-- Sequentially inserting bindings with pairwise-distinct keys, all fresh
for the accumulator, appends them in order. -/
theorem dictSet_foldl_fresh (l : List (String × String)) :
    ∀ acc : List (String × String),
      (l.map Prod.fst).Nodup →
      (∀ kv ∈ l, kv.1 ∉ acc.map Prod.fst) →
      l.foldl (fun d kv => dictSet d kv.1 kv.2) acc = acc ++ l := by
  induction l with
  | nil => intro acc _ _; simp
  | cons kv l ih =>
    intro acc hnd hfresh
    have hk : kv.1 ∉ acc.map Prod.fst := hfresh kv (by simp)
    have hknl : kv.1 ∉ l.map Prod.fst := (List.nodup_cons.mp (by simpa using hnd)).1
    have hstep : dictSet acc kv.1 kv.2 = acc ++ [(kv.1, kv.2)] := by
      simp [dictSet, hk]
    have hfresh' : ∀ kv' ∈ l, kv'.1 ∉ (acc ++ [(kv.1, kv.2)]).map Prod.fst := by
      intro kv' hkv'
      have h1 : kv'.1 ∉ acc.map Prod.fst := hfresh kv' (List.mem_cons_of_mem _ hkv')
      have h2 : kv'.1 ≠ kv.1 := by
        intro he
        exact hknl (he ▸ List.mem_map_of_mem Prod.fst hkv')
      simp [h1, h2]
    rw [List.foldl_cons, hstep,
        ih (acc ++ [(kv.1, kv.2)]) (List.nodup_cons.mp (by simpa using hnd)).2 hfresh']
    simp

/-- C9: `Connector.__init__` with a credentials mapping (distinct keys, as in
any Python dict): if some key is outside the allowed set
{host, user, password, database, port}, the stored credentials stay empty
and no error is raised; if every key is allowed, all key/value pairs are
stored unchanged. -/
theorem connector_credentials_filtering (credentials : List (String × String))
    (hkeys : (credentials.map Prod.fst).Nodup) :
    ((¬ ∀ kv ∈ credentials, allowedKeys.contains kv.1 = true) →
       connectorInit credentials = [])
    ∧ ((∀ kv ∈ credentials, allowedKeys.contains kv.1 = true) →
       connectorInit credentials = credentials) := by
  constructor
  · intro h
    have hall : credentials.all (fun kv => allowedKeys.contains kv.1) = false := by
      rw [← Bool.not_eq_true, List.all_eq_true]
      exact h
    rw [connectorInit, if_neg (by rw [hall]; exact Bool.false_ne_true)]
  · intro h
    have hall : credentials.all (fun kv => allowedKeys.contains kv.1) = true :=
      List.all_eq_true.mpr h
    rw [connectorInit, if_pos hall, dictSet_foldl_fresh _ [] hkeys (by simp)]
    rfl

/-- Witness for C9: one disallowed key drops the whole mapping; an allowed
mapping is stored as given. -/
theorem connector_credentials_filtering_witness :
    connectorInit [("host", "h"), ("apikey", "x")] = []
    ∧ connectorInit [("host", "h"), ("port", "3306")]
        = [("host", "h"), ("port", "3306")] :=
  ⟨(connector_credentials_filtering _ (by decide)).1 (by decide),
   (connector_credentials_filtering _ (by decide)).2 (by decide)⟩

end MySQLHelper
